import Mathlib

/-!
Shallow embedding of the Attempt Engine of the Computer-Based-Test backend
(src/services/attemptService.ts together with the data model in
src/models/Question.ts, src/models/Exam.ts and the Attempt schema, and the
helpers sanitizeQuestion / computeMaxScoreForExam in src/utils/exam.ts).

The effectful TypeScript functions are modelled as pure functions over an
explicit database value (`DB`), an explicit wall-clock instant `now`
(milliseconds since the epoch, as `Date.getTime()`), a randomness oracle
(`Rand`) standing for Math.random-driven shuffling/picking, and a grader
oracle (`GraderFn`) standing for the external AI grading call.  Mongo
ObjectIds are modelled as `String` (their `toString()` form, used for every
comparison in the source).  JavaScript `undefined` optional fields are
modelled as `Option`; string truthiness (empty string falsy) is modelled
explicitly where the source relies on it.
-/

namespace CBT

/-- Question variants (QuestionType in src/models/Question.ts). -/
inductive QuestionType where
  | mcq | truefalse | fill | short | long | assertionreason | integer
deriving DecidableEq, Repr

/-- Difficulty ladder values (Difficulty in src/models/Question.ts). -/
inductive Difficulty where
  | easy | medium | hard
deriving DecidableEq, Repr

/-- Attempt / exam modes. -/
inductive AttemptMode where
  | practice | live | adaptive
deriving DecidableEq, Repr

/-- Attempt lifecycle status (AttemptStatus in the Attempt model). -/
inductive AttemptStatus where
  | created | inProgress | submitted | autoSubmitted | graded
deriving DecidableEq, Repr

/-- An MCQ / true-false option (IOption).  The schema defaults isCorrect
to false, so the stored flag is modelled as Bool. -/
structure QOption where
  id : String
  text : String
  isCorrect : Bool
deriving DecidableEq, Repr

/-- Question tags (subject/topic/difficulty). -/
structure QTags where
  subject : Option String := none
  topic : Option String := none
  difficulty : Option Difficulty := none
deriving DecidableEq, Repr

/-- A catalog question (IQuestion). -/
structure Question where
  id : String
  text : String
  type : QuestionType
  options : Option (List QOption) := none
  correctAnswerText : Option String := none
  integerAnswer : Option Int := none
  assertion : Option String := none
  reason : Option String := none
  assertionIsTrue : Option Bool := none
  reasonIsTrue : Option Bool := none
  reasonExplainsAssertion : Option Bool := none
  tags : QTags := {}
  explanation : Option String := none
deriving DecidableEq, Repr

/-- A per-question answer inside an attempt (IAnswerItem).  Scores are
modelled as rationals (subjective grading awards fractional points). -/
structure AnswerItem where
  questionId : String
  chosenOptionId : Option String := none
  textAnswer : Option String := none
  isMarkedForReview : Option Bool := none
  timeSpentSec : Option Nat := none
  isCorrect : Option Bool := none
  scoreAwarded : Option Rat := none
  rubricScore : Option Rat := none
  aiFeedback : Option String := none
deriving DecidableEq, Repr

/-- An exam section (IExamSection). -/
structure ExamSection where
  id : String
  title : String
  questionIds : List String
  sectionDurationMins : Option Nat := none
  shuffleQuestions : Bool := false
  shuffleOptions : Bool := false
deriving DecidableEq, Repr

/-- Exam schedule window; instants in epoch milliseconds. -/
structure Schedule where
  startAt : Option Nat := none
  endAt : Option Nat := none
deriving DecidableEq, Repr

/-- Exam targeting (assignedTo). -/
structure AssignedTo where
  users : List String := []
  groups : List String := []
deriving DecidableEq, Repr

/-- An exam definition (IExam, src/models/Exam.ts). -/
structure Exam where
  id : String
  title : String
  sections : List ExamSection
  totalDurationMins : Option Nat := none
  mode : Option AttemptMode := none
  schedule : Option Schedule := none
  classLevel : Option String := none
  batch : Option String := none
  isPublished : Bool := false
  assignedTo : Option AssignedTo := none
deriving DecidableEq, Repr

/-- Adaptive-mode selector state inside the snapshot. -/
structure AdaptiveState where
  asked : List String := []
  currentDifficulty : Difficulty := .medium
deriving DecidableEq, Repr

/-- The randomized per-attempt snapshot.  The two `Record<string, ...>`
maps are modelled as association lists keyed by section / question id. -/
structure Snapshot where
  sectionOrder : List String := []
  questionOrderBySection : List (String × List String) := []
  optionOrderByQuestion : List (String × List String) := []
  adaptiveState : Option AdaptiveState := none
deriving DecidableEq, Repr

/-- An attempt record (IAttempt). -/
structure Attempt where
  id : String
  examId : String
  userId : String
  mode : Option AttemptMode := none
  startedAt : Option Nat := none
  submittedAt : Option Nat := none
  status : AttemptStatus := .created
  snapshot : Snapshot := {}
  answers : List AnswerItem := []
  totalScore : Option Rat := none
  maxScore : Option Nat := none
  resultPublished : Bool := false
deriving DecidableEq, Repr

/-- The slice of a user profile the attempt engine reads (class/batch). -/
structure User where
  id : String
  classLevel : Option String := none
  batch : Option String := none
deriving DecidableEq, Repr

/-- The database state the service reads and writes. -/
structure DB where
  exams : List Exam := []
  users : List User := []
  questions : List Question := []
  attempts : List Attempt := []
deriving DecidableEq, Repr

/-- JavaScript truthiness of an optional string (undefined and the empty
string are falsy). -/
def truthyStr : Option String → Bool
  | some s => decide (s ≠ "")
  | none => false

def findExam (db : DB) (examId : String) : Option Exam :=
  db.exams.find? (fun e => decide (e.id = examId))

def findUser (db : DB) (userId : String) : Option User :=
  db.users.find? (fun u => decide (u.id = userId))

def findAttemptById (db : DB) (attemptId : String) : Option Attempt :=
  db.attempts.find? (fun a => decide (a.id = attemptId))

/-- Attempt.findOne({examId, userId}). -/
def findAttemptFor (db : DB) (examId userId : String) : Option Attempt :=
  db.attempts.find? (fun a => decide (a.examId = examId ∧ a.userId = userId))

/-- All question ids referenced by an exam, in section order
(exam.sections.flatMap(s => s.questionIds)). -/
def examQids (exam : Exam) : List String :=
  exam.sections.flatMap (fun s => s.questionIds)

/-- Question.find({_id: {$in: qids}}): the catalog questions referenced by
the given ids, in catalog order. -/
def questionsFor (db : DB) (qids : List String) : List Question :=
  db.questions.filter (fun q => qids.contains q.id)

/-- qmap.get(qid) on the Map built from the loaded questions (ids are
unique in the catalog, so find-first equals the Map lookup). -/
def qlookup (pool : List Question) (qid : String) : Option Question :=
  pool.find? (fun q => decide (q.id = qid))

/-- Persist a (possibly updated) attempt back into the database. -/
def putAttempt (db : DB) (a : Attempt) : DB :=
  { db with attempts := db.attempts.map (fun x => if x.id = a.id then a else x) }

/-- JavaScript string whitespace for trim (ASCII subset; the answer and
reference texts compared by the grader are ordinary text). -/
def isWhite (c : Char) : Bool :=
  decide (c = ' ') || decide (c = '\t') || decide (c = '\n') || decide (c = '\r')

/-- String.prototype.trim: strip leading and trailing whitespace. -/
def trimChars (l : List Char) : List Char :=
  ((l.dropWhile isWhite).reverse.dropWhile isWhite).reverse

/-- toLowerCase on one character (ASCII letters, as in Lean's own
Char.toLower). -/
def lowerChar (c : Char) : Char :=
  if 'A' ≤ c ∧ c ≤ 'Z' then Char.ofNat (c.toNat + 32) else c

/-- toUpperCase on one character (ASCII letters). -/
def upperChar (c : Char) : Char :=
  if 'a' ≤ c ∧ c ≤ 'z' then Char.ofNat (c.toNat - 32) else c

/-- s.trim().toLowerCase(). -/
def jsTrimLower (s : String) : String := String.mk ((trimChars s.data).map lowerChar)

/-- s.trim().toUpperCase(). -/
def jsTrimUpper (s : String) : String := String.mk ((trimChars s.data).map upperChar)

/-- (s || '').trim().toLowerCase(). -/
def normText (s : Option String) : String := jsTrimLower (s.getD "")

/-- Result record of gradeObjective: {isCorrect, score}. -/
structure Graded where
  isCorrect : Bool
  score : Rat
deriving DecidableEq, Repr

/-- The canonical assertion-reason letter computed inside gradeObjective
from the question's three stored booleans. -/
def arCanonical (aT rT explains : Bool) : Option String :=
  if aT && rT && explains then some "A"
  else if aT && rT && !explains then some "B"
  else if aT && !rT then some "C"
  else if !aT && rT then some "D"
  else none

/-- The student's assertion-reason response: textAnswer when present (not
undefined/null), else chosenOptionId, else the empty string; trimmed and
upper-cased. -/
def arGiven (ans : AnswerItem) : String :=
  jsTrimUpper
    (match ans.textAnswer with
     | some t => t
     | none =>
       match ans.chosenOptionId with
       | some c => c
       | none => "")

/-- gradeObjective (src/services/attemptService.ts): deterministic
objective grading; returns none for subjective / ungraded types. -/
def gradeObjective (q : Question) (ans : AnswerItem) : Option Graded :=
  if q.type = .mcq ∨ q.type = .truefalse then
    let correctOption := (q.options.getD []).find? (fun o => o.isCorrect)
    if q.type = .mcq then
      match correctOption, ans.chosenOptionId with
      | some co, some ch =>
        let c := decide (co.id = ch)
        some { isCorrect := c, score := if c then 1 else 0 }
      | _, _ => some { isCorrect := false, score := 0 }
    else
      match correctOption, ans.chosenOptionId with
      | some co, some ch =>
        let c := decide (co.id = ch)
        some { isCorrect := c, score := if c then 1 else 0 }
      | _, _ =>
        let expected := normText q.correctAnswerText
        let got := normText ans.textAnswer
        let c := decide (expected ≠ "") &&
          (decide (got = expected) ||
           (decide (got = "true") && decide (expected = "true")) ||
           (decide (got = "false") && decide (expected = "false")))
        some { isCorrect := c, score := if c then 1 else 0 }
  else if q.type = .fill then
    let expected := normText q.correctAnswerText
    let got := normText ans.textAnswer
    let c := decide (0 < expected.length) && decide (expected = got)
    some { isCorrect := c, score := if c then 1 else 0 }
  else if q.type = .assertionreason then
    let correct := arCanonical (q.assertionIsTrue.getD false) (q.reasonIsTrue.getD false)
      (q.reasonExplainsAssertion.getD false)
    let given := arGiven ans
    let c := match correct with
      | some co => decide (given = co)
      | none => false
    some { isCorrect := c, score := if c then 1 else 0 }
  else none

/-- Response of the external AI grader. -/
structure GradeResp where
  rubricScore : Rat
  feedback : String
deriving DecidableEq, Repr

/-- The external AI grading call gradeSubjectiveAnswerGroq
(questionText, studentAnswer, rubric); `.error` models a thrown error. -/
def GraderFn : Type := String → String → Option String → Except Unit GradeResp

/-- Number(x.toFixed(2)) on the grader's score: round to two decimals. -/
def round2 (x : Rat) : Rat := ((x * 100 + 1/2).floor : Int) / 100

/-- q.correctAnswerText || undefined (empty string becomes undefined). -/
def rubricOf (q : Question) : Option String :=
  match q.correctAnswerText with
  | some s => if s = "" then none else some s
  | none => none

/-- One iteration of the grading loop in submitAttempt: returns the
updated answer and its contribution to the running total. -/
def gradeAnswer (grader : GraderFn) (pool : List Question) (ans : AnswerItem) :
    AnswerItem × Rat :=
  match qlookup pool ans.questionId with
  | none => (ans, 0)
  | some q =>
    match gradeObjective q ans with
    | some g => ({ ans with isCorrect := some g.isCorrect, scoreAwarded := some g.score }, g.score)
    | none =>
      if q.type = .short ∨ q.type = .long then
        match grader q.text (ans.textAnswer.getD "") (rubricOf q) with
        | .ok r =>
          let score := round2 r.rubricScore
          ({ ans with
              rubricScore := some r.rubricScore
              aiFeedback := some r.feedback
              scoreAwarded := some score }, score)
        | .error _ =>
          ({ ans with
              rubricScore := some 0
              aiFeedback := some "AI grading unavailable"
              scoreAwarded := some 0 }, 0)
      else (ans, 0)

/-- The live-mode timing guard shared by saveAnswer and submitAttempt:
(attempt.mode || exam.mode) === 'live' && exam.totalDurationMins &&
attempt.startedAt, and now strictly past
startedAt + totalDurationMins * 60 * 1000.  A totalDurationMins of 0 is
falsy in the source and disables the guard. -/
def liveDeadlinePassed (attempt : Attempt) (exam : Exam) (now : Nat) : Bool :=
  match attempt.mode <|> exam.mode, exam.totalDurationMins, attempt.startedAt with
  | some .live, some t, some s => decide (t ≠ 0) && decide (s + t * 60 * 1000 < now)
  | _, _, _ => false

/-- submitAttempt: grade every answer (objective in-process, subjective
via the external grader with zero-credit recovery), then finalize. -/
def submitAttempt (grader : GraderFn) (now : Nat) (db : DB)
    (attemptId userId : String) (auto : Bool) : Except String (Attempt × DB) :=
  match findAttemptById db attemptId with
  | none => .error "Attempt not found"
  | some attempt =>
    if attempt.userId ≠ userId then .error "Forbidden"
    else if ¬ (attempt.status = .inProgress ∨ attempt.status = .created) then
      .error "Attempt already submitted"
    else
      match findExam db attempt.examId with
      | none => .error "Exam not found"
      | some exam =>
        let auto := auto || liveDeadlinePassed attempt exam now
        let pool := questionsFor db (examQids exam)
        let graded := attempt.answers.map (gradeAnswer grader pool)
        let a2 : Attempt := { attempt with
          answers := graded.map Prod.fst,
          totalScore := some ((graded.map Prod.snd).sum),
          submittedAt := some now,
          status := if auto then .autoSubmitted else .submitted }
        .ok (a2, putAttempt db a2)

/-- Merge of {...existing, ...incoming}: fields carried by the incoming
answer overwrite, the rest are kept. -/
def mergeAnswer (old incoming : AnswerItem) : AnswerItem :=
  { questionId := incoming.questionId,
    chosenOptionId := incoming.chosenOptionId <|> old.chosenOptionId,
    textAnswer := incoming.textAnswer <|> old.textAnswer,
    isMarkedForReview := incoming.isMarkedForReview <|> old.isMarkedForReview,
    timeSpentSec := incoming.timeSpentSec <|> old.timeSpentSec,
    isCorrect := incoming.isCorrect <|> old.isCorrect,
    scoreAwarded := incoming.scoreAwarded <|> old.scoreAwarded,
    rubricScore := incoming.rubricScore <|> old.rubricScore,
    aiFeedback := incoming.aiFeedback <|> old.aiFeedback }

/-- Upsert of an answer keyed by questionId (findIndex + replace, else
push). -/
def upsertAnswer (answers : List AnswerItem) (answer : AnswerItem) : List AnswerItem :=
  match answers.findIdx? (fun a => decide (a.questionId = answer.questionId)) with
  | some idx =>
    match answers.get? idx with
    | some old => answers.set idx (mergeAnswer old answer)
    | none => answers
  | none => answers ++ [answer]

/-- saveAnswer: ownership and editability checks, the live-mode timing
guard (redirecting into submitAttempt with auto=true), then the upsert. -/
def saveAnswer (grader : GraderFn) (now : Nat) (db : DB)
    (attemptId userId : String) (answer : AnswerItem) : Except String (Attempt × DB) :=
  match findAttemptById db attemptId with
  | none => .error "Attempt not found"
  | some attempt =>
    if attempt.userId ≠ userId then .error "Forbidden"
    else if attempt.status ≠ .inProgress then .error "Attempt not editable"
    else
      match findExam db attempt.examId with
      | none => .error "Exam not found"
      | some exam =>
        if liveDeadlinePassed attempt exam now then
          submitAttempt grader now db attemptId userId true
        else
          let a2 : Attempt := { attempt with answers := upsertAnswer attempt.answers answer }
          .ok (a2, putAttempt db a2)

/-- markForReview: convenience wrapper over the saveAnswer upsert. -/
def markForReview (grader : GraderFn) (now : Nat) (db : DB)
    (attemptId userId questionId : String) (marked : Bool) : Except String (Attempt × DB) :=
  saveAnswer grader now db attemptId userId
    { questionId := questionId, isMarkedForReview := some marked }

/-- A sanitized option: id and text only. -/
structure SOption where
  id : String
  text : String
deriving DecidableEq, Repr

/-- The student-facing question projection produced by sanitizeQuestion
(src/utils/exam.ts): text/type/options-without-correctness/tags, with the
explanation cleared (it is re-added only by the practice-mode rule). -/
structure SQuestion where
  id : String
  text : String
  type : QuestionType
  options : Option (List SOption)
  tags : QTags
  explanation : Option String
deriving DecidableEq, Repr

/-- sanitizeQuestion (src/utils/exam.ts). -/
def sanitizeQuestion (q : Question) : SQuestion :=
  { id := q.id
    text := q.text
    type := q.type
    options := q.options.map (fun os => os.map (fun o => { id := o.id, text := o.text }))
    tags := q.tags
    explanation := none }

/-- computeMaxScoreForExam (src/utils/exam.ts): one point per referenced
question present in the loaded map, regardless of its type. -/
def computeMaxScoreForExam (exam : Exam) (pool : List Question) : Nat :=
  (exam.sections.map (fun s => s.questionIds.countP (fun qid => (qlookup pool qid).isSome))).sum

/-- Lookup in a snapshot Record<string, ObjectId[]> association list. -/
def recLookup (m : List (String × List String)) (k : String) : Option (List String) :=
  (m.find? (fun p => decide (p.1 = k))).map Prod.snd

/-- A section of the student view. -/
structure VSection where
  id : String
  title : String
  sectionDurationMins : Option Nat
  questionIds : List String
deriving DecidableEq, Repr

/-- The value returned by getAttemptView. -/
structure AttemptView where
  attempt : Attempt
  examId : String
  examTitle : String
  examTotalDurationMins : Option Nat
  sections : List VSection
  questions : List (String × SQuestion)
deriving DecidableEq, Repr

/-- Practice-mode progressive disclosure inside getAttemptView: the
explanation is copied into the projection only when the attempt is in
practice mode, an answer record for this question exists, and the stored
explanation is truthy. -/
def discloseExplanationStep (attempt : Attempt) (q : Question) (s : SQuestion) : SQuestion :=
  if attempt.mode == some AttemptMode.practice &&
     attempt.answers.any (fun a => decide (a.questionId = q.id)) &&
     truthyStr q.explanation then
    { s with explanation := q.explanation }
  else s

/-- Option reorder per the stored snapshot order (applied when the
sanitized options and a stored order of the same length exist).  Option
ids inside one question are unique, so the by-id relookup reproduces the
source's Object.fromEntries map. -/
def reorderOptionsStep (attempt : Attempt) (qid : String) (s : SQuestion) : SQuestion :=
  match s.options, recLookup attempt.snapshot.optionOrderByQuestion qid with
  | some opts, some ord =>
    if ord.length = opts.length then
      { s with options := some (ord.filterMap (fun oid => opts.find? (fun o => decide (o.id = oid)))) }
    else s
  | _, _ => s

/-- One entry of the view's question dictionary: sanitize, practice-mode
explanation disclosure, then option reorder per the snapshot. -/
def viewEntry (attempt : Attempt) (q : Question) : String × SQuestion :=
  (q.id, reorderOptionsStep attempt q.id (discloseExplanationStep attempt q (sanitizeQuestion q)))

/-- getAttemptView (student view): ownership check, sections in snapshot
order, sanitized per-question projection. -/
def getAttemptView (db : DB) (attemptId userId : String) : Except String AttemptView :=
  match findAttemptById db attemptId with
  | none => .error "Attempt not found"
  | some attempt =>
    if attempt.userId ≠ userId then .error "Forbidden"
    else
      match findExam db attempt.examId with
      | none => .error "Exam not found"
      | some exam =>
        let pool := questionsFor db (examQids exam)
        .ok { attempt := attempt
              examId := exam.id
              examTitle := exam.title
              examTotalDurationMins := exam.totalDurationMins
              sections := exam.sections.map (fun s =>
                { id := s.id
                  title := s.title
                  sectionDurationMins := s.sectionDurationMins
                  questionIds := (recLookup attempt.snapshot.questionOrderBySection s.id).getD [] })
              questions := pool.map (viewEntry attempt) }

/-- The randomness oracle: shuffleArray's Fisher-Yates permutation and the
Math.floor(Math.random()*len) index used by the adaptive pick. -/
structure Rand where
  shuffle : List String → List String
  pickIndex : Nat → Nat

/-- The authorization predicate of startAttempt: published, and either
targeted (explicit user, group label, class or batch match) inside any
schedule window, or untargeted inside an open window. -/
def canAccessExam (exam : Exam) (user : Option User) (userId : String) (now : Nat) : Bool :=
  let startAt := exam.schedule.bind Schedule.startAt
  let endAt := exam.schedule.bind Schedule.endAt
  let hasSchedule := startAt.isSome && endAt.isSome
  let openWindow := hasSchedule &&
    (match startAt, endAt with
     | some s, some e => decide (s ≤ now ∧ now ≤ e)
     | _, _ => false)
  let explicitUser := ((exam.assignedTo.map AssignedTo.users).getD []).contains userId
  let userClass := user.bind User.classLevel
  let userBatch := user.bind User.batch
  let groupLabels := [userClass.getD "", userBatch.getD ""].filter (fun s => decide (s ≠ ""))
  let inGroups := ((exam.assignedTo.map AssignedTo.groups).getD []).any (fun g => groupLabels.contains g)
  let classMatch := truthyStr userClass && truthyStr exam.classLevel && userClass == exam.classLevel
  let batchMatch := truthyStr userBatch && truthyStr exam.batch && userBatch == exam.batch
  let targeted := explicitUser || inGroups || classMatch || batchMatch
  exam.isPublished && ((targeted && (!hasSchedule || openWindow)) || (!targeted && openWindow))

/-- The per-section question order of the new snapshot. -/
def buildQuestionOrder (rand : Rand) (sections : List ExamSection) : List (String × List String) :=
  sections.map (fun s =>
    (s.id, if s.shuffleQuestions then rand.shuffle s.questionIds else s.questionIds))

/-- The per-question option order of the new snapshot (only for sections
with shuffleOptions, only for questions with a nonempty option list). -/
def buildOptionOrder (rand : Rand) (pool : List Question) (sections : List ExamSection)
    (qorder : List (String × List String)) : List (String × List String) :=
  sections.flatMap (fun s =>
    if s.shuffleOptions then
      ((recLookup qorder s.id).getD []).filterMap (fun qid =>
        match qlookup pool qid with
        | some q =>
          match q.options with
          | some os => if 0 < os.length then some (qid, rand.shuffle (os.map QOption.id)) else none
          | none => none
        | none => none)
    else [])

/-- startAttempt (the authoritative version with access control):
authorization, at-most-one-attempt check, snapshot build, creation. -/
def startAttempt (rand : Rand) (now : Nat) (freshId : String) (db : DB)
    (examId userId : String) : Except String (Attempt × DB) :=
  match findExam db examId with
  | none => .error "Exam not found"
  | some exam =>
    let user := findUser db userId
    if ¬ canAccessExam exam user userId now then .error "You are not allowed to start this exam"
    else
      match findAttemptFor db examId userId with
      | some attempt => .ok (attempt, db)
      | none =>
        let pool := questionsFor db (examQids exam)
        let qorder := buildQuestionOrder rand exam.sections
        let attempt : Attempt :=
          { id := freshId
            examId := examId
            userId := userId
            mode := some (exam.mode.getD .live)
            startedAt := some now
            status := .inProgress
            snapshot :=
              { sectionOrder := exam.sections.map (fun s => s.id)
                questionOrderBySection := qorder
                optionOrderByQuestion := buildOptionOrder rand pool exam.sections qorder
                adaptiveState :=
                  if exam.mode == some AttemptMode.adaptive then
                    some { asked := [], currentDifficulty := Difficulty.medium }
                  else none }
            answers := []
            maxScore := some (computeMaxScoreForExam exam pool) }
        .ok (attempt, { db with attempts := db.attempts ++ [attempt] })

/-- Result of the adaptive selector: a question id or {done: true}. -/
inductive NextResult where
  | done
  | question (questionId : String)
deriving DecidableEq, Repr

/-- The three-rung ladder ['easy','medium','hard']. -/
def diffOrder : List Difficulty := [.easy, .medium, .hard]

/-- One ladder step: idx+1 clamped at 2 on a correct answer, idx-1
clamped at 0 otherwise (natural subtraction is the Math.max(0, ...)). -/
def stepDifficulty (correct : Bool) (d : Difficulty) : Difficulty :=
  let idx := diffOrder.indexOf d
  let idx2 := if correct then min 2 (idx + 1) else idx - 1
  diffOrder.getD idx2 d

/-- The most recently recorded answer: last with a truthy scoreAwarded
(zero is falsy!) or with isCorrect set. -/
def lastRecorded (answers : List AnswerItem) : Option AnswerItem :=
  answers.reverse.find? (fun a =>
    (match a.scoreAwarded with | some s => decide (s ≠ 0) | none => false) || a.isCorrect.isSome)

/-- Whether the last recorded answer counts as correct: isCorrect truthy,
or a numeric rubricScore above 0.6. -/
def lastWasCorrect (a : AnswerItem) : Bool :=
  a.isCorrect.getD false ||
  (match a.rubricScore with | some r => decide ((3 : Rat)/5 < r) | none => false)

/-- arr[Math.floor(Math.random() * arr.length)] on a possibly empty
array; the oracle's index is brought into range by the modulus. -/
def pickAt (rand : Rand) (l : List Question) : Option Question :=
  if l.length = 0 then none else l.get? (rand.pickIndex l.length % l.length)

/-- adaptiveState?.asked || []. -/
def askedOf (attempt : Attempt) : List String :=
  (attempt.snapshot.adaptiveState.map AdaptiveState.asked).getD []

/-- The selector state after the ladder step driven by the last recorded
answer (state defaults to {asked: [], currentDifficulty: medium}). -/
def steppedState (attempt : Attempt) : AdaptiveState :=
  let st0 := attempt.snapshot.adaptiveState.getD { asked := [], currentDifficulty := .medium }
  match lastRecorded attempt.answers with
  | some last =>
    { st0 with currentDifficulty := stepDifficulty (lastWasCorrect last) st0.currentDifficulty }
  | none => st0

/-- The not-yet-asked questions of the pool. -/
def unaskedOf (pool : List Question) (asked : List String) : List Question :=
  pool.filter (fun q => !asked.contains q.id)

/-- The not-yet-asked questions matching the current difficulty
(tags?.difficulty || 'medium'). -/
def adaptiveCandidates (pool : List Question) (asked : List String) (d : Difficulty) :
    List Question :=
  pool.filter (fun q => !asked.contains q.id && decide (q.tags.difficulty.getD .medium = d))

/-- The selector's pick: a random candidate of the current difficulty,
else a random not-yet-asked question of any difficulty, else none. -/
def adaptiveChoose (rand : Rand) (pool : List Question) (asked : List String) (d : Difficulty) :
    Option Question :=
  match pickAt rand (adaptiveCandidates pool asked d) with
  | some c => some c
  | none => pickAt rand (unaskedOf pool asked)

/-- nextAdaptiveQuestion: mode guard, ladder step from the last recorded
answer, uniform pick among unasked questions of the current difficulty,
fallback to any unasked question, {done: true} on exhaustion. -/
def nextAdaptiveQuestion (rand : Rand) (db : DB) (attemptId userId : String) :
    Except String (NextResult × DB) :=
  match findAttemptById db attemptId with
  | none => .error "Attempt not found"
  | some attempt =>
    if attempt.userId ≠ userId then .error "Forbidden"
    else
      match findExam db attempt.examId with
      | none => .error "Exam not found"
      | some exam =>
        if attempt.mode ≠ some .adaptive ∧ exam.mode ≠ some .adaptive then
          .error "Attempt is not adaptive"
        else
          let pool := questionsFor db (examQids exam)
          let st1 := steppedState attempt
          match adaptiveChoose rand pool (askedOf attempt) st1.currentDifficulty with
          | none => .ok (.done, db)
          | some c =>
            let st2 := { st1 with asked := st1.asked ++ [c.id] }
            let a2 := { attempt with snapshot := { attempt.snapshot with adaptiveState := some st2 } }
            .ok (.question c.id, putAttempt db a2)

/-! ## Helper lemmas -/

theorem strLenPos (s : String) : 0 < s.length ↔ s ≠ "" := by
  rw [Nat.pos_iff_ne_zero]
  constructor
  · intro h hs
    exact h (by simp [hs])
  · intro h hl
    refine h ?_
    cases s with
    | mk data =>
      cases data with
      | nil => rfl
      | cons c cs => simp [String.length] at hl

/-! ## C4: fill grading -/

/-- C4 (amended): for fill questions, grading returns a result whose
isCorrect holds iff the trimmed, lower-cased correctAnswerText is
NONEMPTY and equals the trimmed, lower-cased textAnswer; the score is 1
when correct and 0 otherwise. -/
theorem fill_exact_match_amended (q : Question) (ans : AnswerItem) (h : q.type = .fill) :
    ∃ r, gradeObjective q ans = some r ∧
      (r.isCorrect = true ↔
        normText q.correctAnswerText ≠ "" ∧
        normText q.correctAnswerText = normText ans.textAnswer) ∧
      r.score = (if r.isCorrect = true then 1 else 0) := by
  simp only [gradeObjective, h]
  refine ⟨_, rfl, ?_, ?_⟩
  · simp [Bool.and_eq_true, decide_eq_true_eq, strLenPos]
  · by_cases hc : 0 < (normText q.correctAnswerText).length ∧
        normText q.correctAnswerText = normText ans.textAnswer
    · simp [hc]
    · simp [hc]

def qFillEmpty : Question :=
  { id := "q1", text := "t", type := .fill, correctAnswerText := some "" }

def ansFillEmpty : AnswerItem := { questionId := "q1", textAnswer := some "" }

/-- C4 counterexample: a fill question whose correctAnswerText is the
empty string and an empty textAnswer.  The two trimmed, lower-cased
strings are equal, yet the code marks the answer incorrect with score 0
(the source additionally requires a nonempty expected answer). -/
theorem fill_exact_match_counterexample :
    normText qFillEmpty.correctAnswerText = normText ansFillEmpty.textAnswer ∧
    gradeObjective qFillEmpty ansFillEmpty = some { isCorrect := false, score := 0 } := by
  exact ⟨rfl, by decide⟩

def qFillW : Question :=
  { id := "q1", text := "Capital of France?", type := .fill, correctAnswerText := some "Paris" }

def ansFillW : AnswerItem := { questionId := "q1", textAnswer := some " paris " }

/-- Witness for C4's amended theorem at a concrete fill question. -/
theorem fill_exact_match_witness :
    ∃ r, gradeObjective qFillW ansFillW = some r ∧
      (r.isCorrect = true ↔
        normText qFillW.correctAnswerText ≠ "" ∧
        normText qFillW.correctAnswerText = normText ansFillW.textAnswer) ∧
      r.score = (if r.isCorrect = true then 1 else 0) :=
  fill_exact_match_amended qFillW ansFillW rfl

/-! ## C5: truefalse grading -/

/-- C5 (amended): for truefalse questions, when a designated correct
option exists AND the student chose an option, correctness is the id
match; in every other case (option-less question, no designated correct
option, or no chosen option) correctness falls back to case-insensitive
equality of textAnswer with a NONEMPTY correctAnswerText; the score is 1
when correct and 0 otherwise. -/
theorem truefalse_grading_amended (q : Question) (ans : AnswerItem) (h : q.type = .truefalse) :
    ∃ r, gradeObjective q ans = some r ∧
      r.score = (if r.isCorrect = true then 1 else 0) ∧
      (match (q.options.getD []).find? (fun o => o.isCorrect), ans.chosenOptionId with
       | some co, some ch => r.isCorrect = true ↔ co.id = ch
       | _, _ =>
         r.isCorrect = true ↔
           normText q.correctAnswerText ≠ "" ∧
           normText ans.textAnswer = normText q.correctAnswerText) := by
  cases hco : (q.options.getD []).find? (fun o => o.isCorrect) with
  | some co =>
    cases hch : ans.chosenOptionId with
    | some ch =>
      simp only [gradeObjective, h, hco, hch]
      refine ⟨_, rfl, rfl, ?_⟩
      simp [decide_eq_true_eq]
    | none =>
      simp only [gradeObjective, h, hco, hch]
      refine ⟨_, rfl, rfl, ?_⟩
      constructor
      · intro hc
        simp only [Bool.and_eq_true, Bool.or_eq_true, Bool.not_eq_eq_eq_not, Bool.not_true,
          decide_eq_true_eq, decide_eq_false_iff_not] at hc
        obtain ⟨hne, hgot⟩ := hc
        refine ⟨hne, ?_⟩
        rcases hgot with (hg | ⟨hg1, hg2⟩) | ⟨hg1, hg2⟩
        · exact hg
        · rw [hg1, hg2]
        · rw [hg1, hg2]
      · intro ⟨hne, heq⟩
        simp [hne, heq]
  | none =>
    cases hch : ans.chosenOptionId with
    | some ch =>
      simp only [gradeObjective, h, hco, hch]
      refine ⟨_, rfl, rfl, ?_⟩
      constructor
      · intro hc
        simp only [Bool.and_eq_true, Bool.or_eq_true, Bool.not_eq_eq_eq_not, Bool.not_true,
          decide_eq_true_eq, decide_eq_false_iff_not] at hc
        obtain ⟨hne, hgot⟩ := hc
        refine ⟨hne, ?_⟩
        rcases hgot with (hg | ⟨hg1, hg2⟩) | ⟨hg1, hg2⟩
        · exact hg
        · rw [hg1, hg2]
        · rw [hg1, hg2]
      · intro ⟨hne, heq⟩
        simp [hne, heq]
    | none =>
      simp only [gradeObjective, h, hco, hch]
      refine ⟨_, rfl, rfl, ?_⟩
      constructor
      · intro hc
        simp only [Bool.and_eq_true, Bool.or_eq_true, Bool.not_eq_eq_eq_not, Bool.not_true,
          decide_eq_true_eq, decide_eq_false_iff_not] at hc
        obtain ⟨hne, hgot⟩ := hc
        refine ⟨hne, ?_⟩
        rcases hgot with (hg | ⟨hg1, hg2⟩) | ⟨hg1, hg2⟩
        · exact hg
        · rw [hg1, hg2]
        · rw [hg1, hg2]
      · intro ⟨hne, heq⟩
        simp [hne, heq]

def qTFOpt : Question :=
  { id := "q2", text := "t", type := .truefalse,
    options := some [{ id := "o1", text := "True", isCorrect := true }],
    correctAnswerText := some "true" }

def ansTFText : AnswerItem := { questionId := "q2", textAnswer := some "true" }

/-- C5 counterexample: a truefalse question that is NOT option-less (it
has a designated correct option) answered with no chosenOptionId and a
matching textAnswer.  The claim's conditions award 0, but the code falls
back to the text comparison and marks it correct with score 1. -/
theorem truefalse_counterexample :
    qTFOpt.options = some [{ id := "o1", text := "True", isCorrect := true }] ∧
    ansTFText.chosenOptionId = none ∧
    gradeObjective qTFOpt ansTFText = some { isCorrect := true, score := 1 } := by
  exact ⟨rfl, rfl, by decide⟩

/-- Witness for C5's amended theorem at a concrete truefalse question. -/
theorem truefalse_grading_witness :
    ∃ r, gradeObjective qTFOpt ansTFText = some r ∧
      r.score = (if r.isCorrect = true then 1 else 0) ∧
      (match (qTFOpt.options.getD []).find? (fun o => o.isCorrect), ansTFText.chosenOptionId with
       | some co, some ch => r.isCorrect = true ↔ co.id = ch
       | _, _ =>
         r.isCorrect = true ↔
           normText qTFOpt.correctAnswerText ≠ "" ∧
           normText ansTFText.textAnswer = normText qTFOpt.correctAnswerText) :=
  truefalse_grading_amended qTFOpt ansTFText rfl

/-! ## C6: assertion-reason grading -/

/-- The canonical-letter table exactly as the specification words it:
A when assertion true, reason true and reason explains assertion; B when
both true and reason does not explain; C when assertion true and reason
false; D when assertion false and reason true; no letter otherwise. -/
def canonicalLetterSpec (aT rT explains : Bool) : Option String :=
  if aT = true ∧ rT = true ∧ explains = true then some "A"
  else if aT = true ∧ rT = true ∧ explains = false then some "B"
  else if aT = true ∧ rT = false then some "C"
  else if aT = false ∧ rT = true then some "D"
  else none

theorem arCanonical_eq_spec (aT rT explains : Bool) :
    arCanonical aT rT explains = canonicalLetterSpec aT rT explains := by
  cases aT <;> cases rT <;> cases explains <;> rfl

/-- C6: for assertionreason questions, grading compares the student's
single-letter answer (textAnswer first, else chosenOptionId, trimmed and
upper-cased) against the canonical letter of the specification's table;
the answer is correct (score 1) exactly when a canonical letter exists
and the letters match, and is incorrect whenever both stored booleans are
false (no canonical letter). -/
theorem assertionreason_grading (q : Question) (ans : AnswerItem)
    (h : q.type = .assertionreason) :
    ∃ r, gradeObjective q ans = some r ∧
      r.score = (if r.isCorrect = true then 1 else 0) ∧
      (r.isCorrect = true ↔
        ∃ c, canonicalLetterSpec (q.assertionIsTrue.getD false) (q.reasonIsTrue.getD false)
              (q.reasonExplainsAssertion.getD false) = some c ∧ arGiven ans = c) ∧
      (q.assertionIsTrue.getD false = false ∧ q.reasonIsTrue.getD false = false →
        r.isCorrect = false) := by
  simp only [gradeObjective, h, arCanonical_eq_spec]
  cases hc : canonicalLetterSpec (q.assertionIsTrue.getD false) (q.reasonIsTrue.getD false)
      (q.reasonExplainsAssertion.getD false) with
  | some c =>
    refine ⟨_, rfl, rfl, ?_, ?_⟩
    · simp [decide_eq_true_eq]
    · intro ⟨ha, hr⟩
      rw [ha, hr] at hc
      simp [canonicalLetterSpec] at hc
  | none =>
    refine ⟨_, rfl, rfl, ?_, ?_⟩
    · simp
    · intro _
      rfl

def qARW : Question :=
  { id := "q3", text := "t", type := .assertionreason,
    assertionIsTrue := some true, reasonIsTrue := some true,
    reasonExplainsAssertion := some false }

def ansARW : AnswerItem := { questionId := "q3", textAnswer := some " b " }

/-- Witness for C6's theorem at a concrete assertion-reason question
(canonical letter B, answered with a lower-case letter b). -/
theorem assertionreason_grading_witness :
    ∃ r, gradeObjective qARW ansARW = some r ∧
      r.score = (if r.isCorrect = true then 1 else 0) ∧
      (r.isCorrect = true ↔
        ∃ c, canonicalLetterSpec (qARW.assertionIsTrue.getD false) (qARW.reasonIsTrue.getD false)
              (qARW.reasonExplainsAssertion.getD false) = some c ∧ arGiven ansARW = c) ∧
      (qARW.assertionIsTrue.getD false = false ∧ qARW.reasonIsTrue.getD false = false →
        r.isCorrect = false) :=
  assertionreason_grading qARW ansARW rfl

/-! ## Submit-path helper lemmas -/

/-- Reduction of submitAttempt under its preconditions (attempt found,
caller owns it, status editable, exam found). -/
theorem submitAttempt_eq (grader : GraderFn) (now : Nat) (db : DB)
    (attemptId : String) (auto : Bool) (att : Attempt) (exam : Exam)
    (hA : findAttemptById db attemptId = some att)
    (hS : att.status = .inProgress ∨ att.status = .created)
    (hE : findExam db att.examId = some exam) :
    submitAttempt grader now db attemptId att.userId auto =
      (let auto2 := auto || liveDeadlinePassed att exam now
       let graded := att.answers.map (gradeAnswer grader (questionsFor db (examQids exam)))
       let a2 : Attempt := { att with
         answers := graded.map Prod.fst
         totalScore := some ((graded.map Prod.snd).sum)
         submittedAt := some now
         status := if auto2 then .autoSubmitted else .submitted }
       Except.ok (a2, putAttempt db a2)) := by
  simp only [submitAttempt, hA, hE]
  rcases hS with h1 | h1 <;> simp [h1]

/-- gradeObjective declines short/long questions (the subjective path). -/
theorem gradeObjective_subjective (q : Question) (ans : AnswerItem)
    (h : q.type = .short ∨ q.type = .long) : gradeObjective q ans = none := by
  rcases h with h | h <;> simp [gradeObjective, h]

/-- The grading loop's recovery from a grader failure on a subjective
answer: zero rubricScore, the fixed feedback string, zero awarded. -/
theorem gradeAnswer_graderError (grader : GraderFn) (pool : List Question)
    (ans : AnswerItem) (q : Question)
    (hq : qlookup pool ans.questionId = some q)
    (ht : q.type = .short ∨ q.type = .long)
    (hg : grader q.text (ans.textAnswer.getD "") (rubricOf q) = .error ()) :
    gradeAnswer grader pool ans =
      ({ ans with rubricScore := some 0
                  aiFeedback := some "AI grading unavailable"
                  scoreAwarded := some 0 }, 0) := by
  simp [gradeAnswer, hq, gradeObjective_subjective q ans ht, ht, hg]

/-! ## C7: grader failure never blocks submission -/

/-- C7: if the external AI grader fails on a short/long answer,
submitAttempt still succeeds (no error is surfaced), the attempt reaches
a submitted/auto-submitted status, every answer slot is preserved, and
the failed answer is recorded with rubricScore 0, the feedback string
"AI grading unavailable", and scoreAwarded 0. -/
theorem subjective_failure_zero_credit
    (grader : GraderFn) (now : Nat) (db : DB) (attemptId userId : String) (auto : Bool)
    (att : Attempt) (exam : Exam)
    (hA : findAttemptById db attemptId = some att)
    (hO : att.userId = userId)
    (hS : att.status = .inProgress ∨ att.status = .created)
    (hE : findExam db att.examId = some exam) :
    ∃ a2 db2, submitAttempt grader now db attemptId userId auto = .ok (a2, db2) ∧
      (a2.status = .submitted ∨ a2.status = .autoSubmitted) ∧
      a2.answers.length = att.answers.length ∧
      (∀ (i : Nat) (ans : AnswerItem) (q : Question), att.answers[i]? = some ans →
        qlookup (questionsFor db (examQids exam)) ans.questionId = some q →
        (q.type = .short ∨ q.type = .long) →
        grader q.text (ans.textAnswer.getD "") (rubricOf q) = .error () →
        a2.answers[i]? = some { ans with
          rubricScore := some 0
          aiFeedback := some "AI grading unavailable"
          scoreAwarded := some 0 }) := by
  subst hO
  rw [submitAttempt_eq grader now db attemptId auto att exam hA hS hE]
  refine ⟨_, _, rfl, ?_, ?_, ?_⟩
  · dsimp only
    by_cases hauto : (auto || liveDeadlinePassed att exam now) = true
    · right
      simp [hauto]
    · left
      simp [hauto]
  · simp
  · intro i ans q hi hq ht hg
    simp only [List.map_map, List.getElem?_map, hi]
    simp [Function.comp,
      gradeAnswer_graderError grader (questionsFor db (examQids exam)) ans q hq ht hg]

/-! ## C10: integer questions are never graded but still counted -/

/-- C10: an integer-type question is never graded: gradeObjective
declines it, the grading loop leaves its answer unchanged with a zero
contribution to totalScore (isCorrect/scoreAwarded/rubricScore/aiFeedback
stay as they were), the answer slot survives submitAttempt untouched,
yet computeMaxScoreForExam counts every referenced question one point
regardless of its type. -/
theorem integer_ungraded_but_counted
    (grader : GraderFn) (pool : List Question) (q : Question) (ans : AnswerItem)
    (hq : q.type = .integer) :
    gradeObjective q ans = none ∧
    (qlookup pool ans.questionId = some q → gradeAnswer grader pool ans = (ans, 0)) ∧
    (∀ exam : Exam, ∀ t : QuestionType,
      computeMaxScoreForExam exam (pool.map (fun p => { p with type := t })) =
        computeMaxScoreForExam exam pool) ∧
    (∀ (now : Nat) (db : DB) (attemptId userId : String) (auto : Bool)
       (att : Attempt) (exam : Exam),
      findAttemptById db attemptId = some att →
      att.userId = userId →
      (att.status = AttemptStatus.inProgress ∨ att.status = AttemptStatus.created) →
      findExam db att.examId = some exam →
      questionsFor db (examQids exam) = pool →
      qlookup pool ans.questionId = some q →
      ∀ i : Nat, att.answers[i]? = some ans →
      ∃ a2 db2, submitAttempt grader now db attemptId userId auto = .ok (a2, db2) ∧
        a2.answers[i]? = some ans) := by
  have hobj : gradeObjective q ans = none := by
    simp [gradeObjective, hq]
  have hga : qlookup pool ans.questionId = some q → gradeAnswer grader pool ans = (ans, 0) := by
    intro hl
    simp [gradeAnswer, hl, hobj, hq]
  refine ⟨hobj, hga, ?_, ?_⟩
  · intro exam t
    unfold computeMaxScoreForExam
    congr 1
    refine List.map_congr_left ?_
    intro s _
    refine List.countP_congr ?_
    intro qid _
    have hmap : ∀ l : List Question,
        (qlookup (l.map (fun p => { p with type := t })) qid).isSome
          = (qlookup l qid).isSome := by
      intro l
      induction l with
      | nil => rfl
      | cons a tl ih =>
        by_cases hid : a.id = qid
        · simp [qlookup, List.find?_cons, hid]
        · simpa [qlookup, List.find?_cons, hid] using ih
    rw [hmap pool]
  · intro now db attemptId userId auto att exam hA hO hS hE hpool hl i hi
    subst hO
    rw [submitAttempt_eq grader now db attemptId auto att exam hA hS hE]
    refine ⟨_, _, rfl, ?_⟩
    simp only [List.map_map, List.getElem?_map, hi]
    simp [Function.comp, hpool, hga hl]

/-! ## C2: live deadline forces auto-submission -/

/-- The grading loop never touches the submitted fields of an answer
(questionId, chosenOptionId, textAnswer, isMarkedForReview). -/
theorem gradeAnswer_preserves_submission (grader : GraderFn) (pool : List Question)
    (ans : AnswerItem) :
    ((gradeAnswer grader pool ans).1.questionId = ans.questionId) ∧
    ((gradeAnswer grader pool ans).1.chosenOptionId = ans.chosenOptionId) ∧
    ((gradeAnswer grader pool ans).1.textAnswer = ans.textAnswer) ∧
    ((gradeAnswer grader pool ans).1.isMarkedForReview = ans.isMarkedForReview) := by
  rcases hql : qlookup pool ans.questionId with _ | q
  · simp [gradeAnswer, hql]
  · rcases hgo : gradeObjective q ans with _ | g
    · by_cases ht : q.type = QuestionType.short ∨ q.type = QuestionType.long
      · rcases hg : grader q.text (ans.textAnswer.getD "") (rubricOf q) with e | r
        · simp [gradeAnswer, hql, hgo, ht, hg]
        · simp [gradeAnswer, hql, hgo, ht, hg]
      · simp [gradeAnswer, hql, hgo, ht]
    · simp [gradeAnswer, hql, hgo]

/-- C2: for an in-progress live-mode attempt whose exam carries a nonzero
totalDurationMins T, a saveAnswer call strictly after startedAt + T is
redirected into the submit path with auto=true (the posted answer is not
merged: every answer's submitted fields survive unchanged and no answer
is added), and any submit call after the deadline ends with status
auto-submitted. -/
theorem live_deadline_autosubmit
    (grader : GraderFn) (now : Nat) (db : DB) (attemptId userId : String)
    (ans : AnswerItem) (att : Attempt) (exam : Exam) (T s : Nat)
    (hA : findAttemptById db attemptId = some att)
    (hO : att.userId = userId)
    (hS : att.status = .inProgress)
    (hE : findExam db att.examId = some exam)
    (hM : (att.mode <|> exam.mode) = some .live)
    (hT : exam.totalDurationMins = some T)
    (hT0 : T ≠ 0)
    (hSt : att.startedAt = some s)
    (hNow : s + T * 60 * 1000 < now) :
    saveAnswer grader now db attemptId userId ans =
      submitAttempt grader now db attemptId userId true ∧
    ∃ a2 db2,
      submitAttempt grader now db attemptId userId true = .ok (a2, db2) ∧
      a2.status = .autoSubmitted ∧
      a2.answers.map (fun a => (a.questionId, a.chosenOptionId, a.textAnswer, a.isMarkedForReview)) =
        att.answers.map (fun a => (a.questionId, a.chosenOptionId, a.textAnswer, a.isMarkedForReview)) ∧
      (∀ auto, ∃ a3 db3, submitAttempt grader now db attemptId userId auto = .ok (a3, db3) ∧
        a3.status = .autoSubmitted) := by
  subst hO
  have hDL : liveDeadlinePassed att exam now = true := by
    unfold liveDeadlinePassed
    rw [hM, hT, hSt]
    simp [hT0, hNow]
  constructor
  · simp [saveAnswer, hA, hE, hS, hDL]
  · rw [submitAttempt_eq grader now db attemptId true att exam hA (Or.inl hS) hE]
    refine ⟨_, _, rfl, ?_, ?_, ?_⟩
    · simp
    · simp only [List.map_map]
      refine List.map_congr_left ?_
      intro a _
      have h4 := gradeAnswer_preserves_submission grader (questionsFor db (examQids exam)) a
      simp [Function.comp, h4.1, h4.2.1, h4.2.2.1, h4.2.2.2]
    · intro auto
      rw [submitAttempt_eq grader now db attemptId auto att exam hA (Or.inl hS) hE]
      refine ⟨_, _, rfl, ?_⟩
      simp [hDL]

def noGrader : GraderFn := fun _ _ _ => .error ()

def examLive : Exam :=
  { id := "e1", title := "E", sections := [], totalDurationMins := some 1,
    mode := some .live, isPublished := true }

def attLive : Attempt :=
  { id := "a1", examId := "e1", userId := "u1", mode := some .live,
    startedAt := some 0, status := .inProgress, answers := [] }

def dbLive : DB := { exams := [examLive], attempts := [attLive] }

def ansLate : AnswerItem := { questionId := "q9", textAnswer := some "late" }

/-- Witness for C2 at a concrete one-minute live exam, saving 61 seconds
after the start. -/
theorem live_deadline_autosubmit_witness :
    saveAnswer noGrader 61000 dbLive "a1" "u1" ansLate =
      submitAttempt noGrader 61000 dbLive "a1" "u1" true ∧
    ∃ a2 db2,
      submitAttempt noGrader 61000 dbLive "a1" "u1" true = .ok (a2, db2) ∧
      a2.status = .autoSubmitted ∧
      a2.answers.map (fun a => (a.questionId, a.chosenOptionId, a.textAnswer, a.isMarkedForReview)) =
        attLive.answers.map (fun a => (a.questionId, a.chosenOptionId, a.textAnswer, a.isMarkedForReview)) ∧
      (∀ auto, ∃ a3 db3, submitAttempt noGrader 61000 dbLive "a1" "u1" auto = .ok (a3, db3) ∧
        a3.status = .autoSubmitted) :=
  live_deadline_autosubmit noGrader 61000 dbLive "a1" "u1" ansLate attLive examLive 1 0
    rfl rfl rfl rfl rfl rfl (by decide) rfl (by decide)

/-! ## C1: start is idempotent only up to the access-control gate -/

def idRand : Rand := { shuffle := fun l => l, pickIndex := fun _ => 0 }

def examUnpub : Exam := { id := "e1", title := "E", sections := [], isPublished := false }

def attExisting : Attempt := { id := "a1", examId := "e1", userId := "u1", status := .inProgress }

def dbUnpub : DB := { exams := [examUnpub], attempts := [attExisting] }

/-- C1 counterexample: an Attempt exists for (e1, u1), but the exam has
been unpublished, so startAttempt fails the access-control gate (which
runs BEFORE the idempotency lookup) instead of returning the existing
Attempt. -/
theorem start_idempotent_counterexample :
    findAttemptFor dbUnpub "e1" "u1" = some attExisting ∧
    startAttempt idRand 0 "a2" dbUnpub "e1" "u1" =
      .error "You are not allowed to start this exam" := by
  exact ⟨rfl, rfl⟩

/-- C1 (amended): when an Attempt already exists for (examId, userId),
startAttempt either fails (exam missing, or the access-control gate
rejects the caller) or returns exactly the existing Attempt with the
database unchanged — it never creates a second Attempt for the pair; and
whenever the exam is found and the access check passes, the existing
Attempt is returned unchanged. -/
theorem start_idempotent_amended
    (rand : Rand) (now : Nat) (freshId : String) (db : DB) (examId userId : String)
    (a0 : Attempt) (hEx : findAttemptFor db examId userId = some a0) :
    (startAttempt rand now freshId db examId userId = .ok (a0, db) ∨
      startAttempt rand now freshId db examId userId = .error "Exam not found" ∨
      startAttempt rand now freshId db examId userId =
        .error "You are not allowed to start this exam") ∧
    (∀ exam, findExam db examId = some exam →
      canAccessExam exam (findUser db userId) userId now = true →
      startAttempt rand now freshId db examId userId = .ok (a0, db)) := by
  constructor
  · cases hE : findExam db examId with
    | none =>
      right; left
      simp [startAttempt, hE]
    | some exam =>
      by_cases hAcc : canAccessExam exam (findUser db userId) userId now = true
      · left
        simp [startAttempt, hE, hAcc, hEx]
      · right; right
        simp [startAttempt, hE, hAcc]
  · intro exam hE hAcc
    simp [startAttempt, hE, hAcc, hEx]

def examPub : Exam :=
  { id := "e2", title := "E2", sections := [], isPublished := true,
    assignedTo := some { users := ["u1"], groups := [] } }

def attExisting2 : Attempt := { id := "a7", examId := "e2", userId := "u1", status := .inProgress }

def dbPub : DB := { exams := [examPub], attempts := [attExisting2] }

/-- Witness for C1's amended theorem: a published exam explicitly
assigned to the student, with an existing attempt. -/
theorem start_idempotent_witness :
    (startAttempt idRand 5 "fresh" dbPub "e2" "u1" = .ok (attExisting2, dbPub) ∨
      startAttempt idRand 5 "fresh" dbPub "e2" "u1" = .error "Exam not found" ∨
      startAttempt idRand 5 "fresh" dbPub "e2" "u1" =
        .error "You are not allowed to start this exam") ∧
    (∀ exam, findExam dbPub "e2" = some exam →
      canAccessExam exam (findUser dbPub "u1") "u1" 5 = true →
      startAttempt idRand 5 "fresh" dbPub "e2" "u1" = .ok (attExisting2, dbPub)) :=
  start_idempotent_amended idRand 5 "fresh" dbPub "e2" "u1" attExisting2 rfl

/-! ## C8: adaptive selector invariants -/

theorem pickAt_mem (rand : Rand) (l : List Question) (q : Question)
    (h : pickAt rand l = some q) : q ∈ l := by
  unfold pickAt at h
  by_cases hl : l.length = 0
  · rw [if_pos hl] at h
    cases h
  · rw [if_neg hl] at h
    exact List.get?_mem h

theorem pickAt_isSome (rand : Rand) (l : List Question) (h : l ≠ []) :
    (pickAt rand l).isSome = true := by
  unfold pickAt
  have hlen : 0 < l.length := List.length_pos.mpr h
  rw [if_neg (Nat.pos_iff_ne_zero.mp hlen)]
  rw [List.get?_eq_get (Nat.mod_lt _ hlen)]
  rfl

/-- A question returned by the selector's pick was not yet asked. -/
theorem adaptiveChoose_not_asked (rand : Rand) (pool : List Question) (asked : List String)
    (d : Difficulty) (c : Question) (h : adaptiveChoose rand pool asked d = some c) :
    asked.contains c.id = false := by
  unfold adaptiveChoose at h
  rcases hp : pickAt rand (adaptiveCandidates pool asked d) with _ | c1
  · rw [hp] at h
    have hmem := pickAt_mem rand _ c h
    have hpred := (List.mem_filter.mp hmem).2
    simpa using hpred
  · rw [hp] at h
    have hc1 : c1 = c := by simpa using h
    subst hc1
    have hmem := pickAt_mem rand _ c1 hp
    have hpred := (List.mem_filter.mp hmem).2
    simp only [Bool.and_eq_true, Bool.not_eq_eq_eq_not, Bool.not_true] at hpred
    exact hpred.1

/-- The selector's pick is exhausted exactly when no unasked question
remains in the pool. -/
theorem adaptiveChoose_exhausted_iff (rand : Rand) (pool : List Question) (asked : List String)
    (d : Difficulty) :
    adaptiveChoose rand pool asked d = none ↔ unaskedOf pool asked = [] := by
  constructor
  · intro h
    unfold adaptiveChoose at h
    rcases hp : pickAt rand (adaptiveCandidates pool asked d) with _ | c1
    · rw [hp] at h
      have h2 : pickAt rand (unaskedOf pool asked) = none := by simpa using h
      by_contra hne
      have hs := pickAt_isSome rand (unaskedOf pool asked) hne
      rw [h2] at hs
      cases hs
    · rw [hp] at h
      simp at h
  · intro h
    unfold adaptiveChoose
    have hcand : adaptiveCandidates pool asked d = [] := by
      unfold adaptiveCandidates
      unfold unaskedOf at h
      rw [List.filter_eq_nil_iff] at h ⊢
      intro a ha hpa
      refine h a ha ?_
      simp only [Bool.and_eq_true] at hpa
      exact hpa.1
    rw [hcand]
    simp [pickAt, h]

/-- C8: for an adaptive attempt, the selector call succeeds, a returned
question id is never one already in adaptiveState.asked, it returns done
exactly when no unasked pool question remains, and the difficulty ladder
step always lands inside the three-rung ladder (clamped at both ends:
a correct answer at hard stays hard, a wrong answer at easy stays
easy). -/
theorem adaptive_selector_invariants
    (rand : Rand) (db : DB) (attemptId userId : String) (att : Attempt) (exam : Exam)
    (hA : findAttemptById db attemptId = some att)
    (hO : att.userId = userId)
    (hE : findExam db att.examId = some exam)
    (hM : att.mode = some .adaptive ∨ exam.mode = some .adaptive) :
    ((∀ c d, stepDifficulty c d ∈ diffOrder) ∧
      stepDifficulty true .hard = .hard ∧ stepDifficulty false .easy = .easy) ∧
    ∃ res db2, nextAdaptiveQuestion rand db attemptId userId = .ok (res, db2) ∧
      (∀ qid, res = .question qid → qid ∉ askedOf att) ∧
      (res = .done ↔ unaskedOf (questionsFor db (examQids exam)) (askedOf att) = []) := by
  refine ⟨⟨by intro c d; cases c <;> cases d <;> decide, by decide, by decide⟩, ?_⟩
  subst hO
  have hguard : ¬(att.mode ≠ some AttemptMode.adaptive ∧ exam.mode ≠ some AttemptMode.adaptive) := by
    rcases hM with h | h
    · exact fun hc => hc.1 h
    · exact fun hc => hc.2 h
  rcases hch : adaptiveChoose rand (questionsFor db (examQids exam)) (askedOf att)
      (steppedState att).currentDifficulty with _ | c
  · refine ⟨.done, db, ?_, ?_, ?_⟩
    · simp [nextAdaptiveQuestion, hA, hE, hguard, hch]
    · intro qid hq
      cases hq
    · simp only [true_iff]
      exact (adaptiveChoose_exhausted_iff rand _ _ _).mp hch
  · refine ⟨.question c.id,
      putAttempt db
        { att with
          snapshot :=
            { att.snapshot with
              adaptiveState := some { steppedState att with asked := (steppedState att).asked ++ [c.id] } } },
      ?_, ?_, ?_⟩
    · simp [nextAdaptiveQuestion, hA, hE, hguard, hch]
    · intro qid hq
      cases hq
      have hcont := adaptiveChoose_not_asked rand _ _ _ c hch
      intro hm
      have hmem : (askedOf att).contains c.id = true := List.elem_eq_true_of_mem hm
      rw [hcont] at hmem
      cases hmem
    · constructor
      · intro hq
        cases hq
      · intro hempty
        rw [(adaptiveChoose_exhausted_iff rand _ _ _).mpr hempty] at hch
        cases hch

def qAdapt : Question :=
  { id := "qa1", text := "t", type := .mcq,
    options := some [{ id := "o1", text := "x", isCorrect := true }],
    tags := { difficulty := some .medium } }

def examAdapt : Exam :=
  { id := "e3", title := "A", mode := some .adaptive, isPublished := true,
    sections := [{ id := "s1", title := "S", questionIds := ["qa1"] }] }

def attAdapt : Attempt :=
  { id := "a3", examId := "e3", userId := "u3", mode := some .adaptive,
    status := .inProgress,
    snapshot := { adaptiveState := some { asked := [], currentDifficulty := .medium } } }

def dbAdapt : DB :=
  { exams := [examAdapt], questions := [qAdapt], attempts := [attAdapt] }

/-- Witness for C8 at a concrete one-question adaptive exam. -/
theorem adaptive_selector_witness :
    ((∀ c d, stepDifficulty c d ∈ diffOrder) ∧
      stepDifficulty true .hard = .hard ∧ stepDifficulty false .easy = .easy) ∧
    ∃ res db2, nextAdaptiveQuestion idRand dbAdapt "a3" "u3" = .ok (res, db2) ∧
      (∀ qid, res = .question qid → qid ∉ askedOf attAdapt) ∧
      (res = .done ↔
        unaskedOf (questionsFor dbAdapt (examQids examAdapt)) (askedOf attAdapt) = []) :=
  adaptive_selector_invariants idRand dbAdapt "a3" "u3" attAdapt examAdapt
    rfl rfl rfl (Or.inl rfl)

def qShort : Question :=
  { id := "qs1", text := "Explain.", type := .short, correctAnswerText := some "rubric" }

def examSubj : Exam :=
  { id := "e4", title := "S", isPublished := true,
    sections := [{ id := "s1", title := "S1", questionIds := ["qs1"] }] }

def attSubj : Attempt :=
  { id := "a4", examId := "e4", userId := "u4", status := .inProgress,
    answers := [{ questionId := "qs1", textAnswer := some "my answer" }] }

def dbSubj : DB := { exams := [examSubj], questions := [qShort], attempts := [attSubj] }

/-- Witness for C7 at a concrete short-answer submission whose grader
always fails. -/
theorem subjective_failure_witness :
    ∃ a2 db2, submitAttempt noGrader 100 dbSubj "a4" "u4" false = .ok (a2, db2) ∧
      (a2.status = .submitted ∨ a2.status = .autoSubmitted) ∧
      a2.answers.length = attSubj.answers.length ∧
      (∀ (i : Nat) (ans : AnswerItem) (q : Question), attSubj.answers[i]? = some ans →
        qlookup (questionsFor dbSubj (examQids examSubj)) ans.questionId = some q →
        (q.type = .short ∨ q.type = .long) →
        noGrader q.text (ans.textAnswer.getD "") (rubricOf q) = .error () →
        a2.answers[i]? = some { ans with
          rubricScore := some 0
          aiFeedback := some "AI grading unavailable"
          scoreAwarded := some 0 }) :=
  subjective_failure_zero_credit noGrader 100 dbSubj "a4" "u4" false attSubj examSubj
    rfl rfl (Or.inl rfl) rfl

def qInt : Question := { id := "qi1", text := "2+2?", type := .integer, integerAnswer := some 4 }

def ansInt : AnswerItem := { questionId := "qi1", textAnswer := some "4" }

/-- Witness for C10 at a concrete integer question. -/
theorem integer_ungraded_witness :
    gradeObjective qInt ansInt = none ∧
    (qlookup [qInt] ansInt.questionId = some qInt → gradeAnswer noGrader [qInt] ansInt = (ansInt, 0)) ∧
    (∀ exam : Exam, ∀ t : QuestionType,
      computeMaxScoreForExam exam ([qInt].map (fun p => { p with type := t })) =
        computeMaxScoreForExam exam [qInt]) ∧
    (∀ (now : Nat) (db : DB) (attemptId userId : String) (auto : Bool)
       (att : Attempt) (exam : Exam),
      findAttemptById db attemptId = some att →
      att.userId = userId →
      (att.status = AttemptStatus.inProgress ∨ att.status = AttemptStatus.created) →
      findExam db att.examId = some exam →
      questionsFor db (examQids exam) = [qInt] →
      qlookup [qInt] ansInt.questionId = some qInt →
      ∀ i : Nat, att.answers[i]? = some ansInt →
      ∃ a2 db2, submitAttempt noGrader now db attemptId userId auto = .ok (a2, db2) ∧
        a2.answers[i]? = some ansInt) :=
  integer_ungraded_but_counted noGrader [qInt] qInt ansInt rfl

/-! ## C9: practice-mode explanation disclosure -/

/-- The option-reorder step never touches the explanation field. -/
theorem reorderOptionsStep_explanation (att : Attempt) (qid : String) (s : SQuestion) :
    (reorderOptionsStep att qid s).explanation = s.explanation := by
  unfold reorderOptionsStep
  split
  · split
    · rfl
    · rfl
  · rfl

/-- The disclosure step on a sanitized question yields exactly the
conditional explanation of the progressive-disclosure rule. -/
theorem discloseExplanationStep_explanation (att : Attempt) (q : Question) :
    (discloseExplanationStep att q (sanitizeQuestion q)).explanation =
      (if att.mode = some AttemptMode.practice ∧ (∃ a ∈ att.answers, a.questionId = q.id) ∧
          truthyStr q.explanation = true then q.explanation else none) := by
  unfold discloseExplanationStep
  by_cases hc : att.mode = some AttemptMode.practice ∧ (∃ a ∈ att.answers, a.questionId = q.id) ∧
      truthyStr q.explanation = true
  · rw [if_pos hc]
    have hb : (att.mode == some AttemptMode.practice &&
        att.answers.any (fun a => decide (a.questionId = q.id)) &&
        truthyStr q.explanation) = true := by
      simp only [Bool.and_eq_true, beq_iff_eq, List.any_eq_true, decide_eq_true_eq]
      exact ⟨⟨hc.1, hc.2.1⟩, hc.2.2⟩
    rw [if_pos hb]
  · rw [if_neg hc]
    have hb : ¬((att.mode == some AttemptMode.practice &&
        att.answers.any (fun a => decide (a.questionId = q.id)) &&
        truthyStr q.explanation) = true) := by
      intro hb
      simp only [Bool.and_eq_true, beq_iff_eq, List.any_eq_true, decide_eq_true_eq] at hb
      exact hc ⟨hb.1.1, hb.1.2, hb.2⟩
    rw [if_neg hb]
    rfl

/-- The id and explanation of one view entry. -/
theorem viewEntry_explanation (att : Attempt) (q : Question) :
    (viewEntry att q).1 = q.id ∧
    (viewEntry att q).2.explanation =
      (if att.mode = some AttemptMode.practice ∧ (∃ a ∈ att.answers, a.questionId = q.id) ∧
          truthyStr q.explanation = true then q.explanation else none) := by
  refine ⟨rfl, ?_⟩
  show (reorderOptionsStep att q.id (discloseExplanationStep att q (sanitizeQuestion q))).explanation = _
  rw [reorderOptionsStep_explanation]
  exact discloseExplanationStep_explanation att q

/-- C9: in the student view every projected question's explanation is
present exactly when the attempt is in practice mode, an answer record
for that question exists, and the stored explanation is truthy; in every
other case (other modes, or not yet answered) it is absent. -/
theorem practice_explanation_disclosure
    (db : DB) (attemptId userId : String) (att : Attempt) (view : AttemptView)
    (hA : findAttemptById db attemptId = some att)
    (hV : getAttemptView db attemptId userId = .ok view) :
    ∀ p ∈ view.questions, ∃ q, q ∈ db.questions ∧ q.id = p.1 ∧
      p.2.explanation =
        (if att.mode = some AttemptMode.practice ∧ (∃ a ∈ att.answers, a.questionId = q.id) ∧
            truthyStr q.explanation = true
         then q.explanation else none) := by
  intro p hp
  simp only [getAttemptView, hA] at hV
  by_cases ho : att.userId = userId
  · rcases hE : findExam db att.examId with _ | exam
    · rw [hE] at hV
      simp [ho] at hV
    · rw [hE] at hV
      simp only [ho] at hV
      rw [if_neg (fun hne => hne rfl)] at hV
      injection hV with hV2
      subst hV2
      have hp2 : p ∈ (questionsFor db (examQids exam)).map (viewEntry att) := hp
      obtain ⟨q, hq, hpq⟩ := List.mem_map.mp hp2
      refine ⟨q, (List.mem_filter.mp hq).1, ?_, ?_⟩
      · rw [← hpq]
        exact (viewEntry_explanation att q).1
      · rw [← hpq]
        exact (viewEntry_explanation att q).2
  · simp [ho] at hV

def qExp1 : Question :=
  { id := "qe1", text := "t1", type := .mcq,
    options := some [{ id := "o1", text := "x", isCorrect := true }],
    explanation := some "because" }

def qExp2 : Question :=
  { id := "qe2", text := "t2", type := .fill, correctAnswerText := some "y",
    explanation := some "why" }

def examPr : Exam :=
  { id := "e5", title := "P", mode := some .practice, isPublished := true,
    sections := [{ id := "s1", title := "S", questionIds := ["qe1", "qe2"] }] }

def attPr : Attempt :=
  { id := "a5", examId := "e5", userId := "u5", mode := some .practice,
    status := .inProgress,
    answers := [{ questionId := "qe1", chosenOptionId := some "o1" }] }

def dbPr : DB := { exams := [examPr], questions := [qExp1, qExp2], attempts := [attPr] }

/-- The concrete view of the practice attempt (total by construction). -/
def viewPr : AttemptView :=
  match getAttemptView dbPr "a5" "u5" with
  | .ok v => v
  | .error _ =>
    { attempt := attPr, examId := "", examTitle := "", examTotalDurationMins := none,
      sections := [], questions := [] }

/-- The first entry of the concrete practice view (the answered
question qe1). -/
def pPr : String × SQuestion :=
  viewPr.questions.getD 0
    ("", { id := "", text := "", type := .mcq, options := none, tags := {}, explanation := none })

/-- Witness for C9 at a concrete practice attempt with one answered and
one unanswered question, both carrying explanations: the projection
entry of the answered question discloses its explanation per the rule. -/
theorem practice_explanation_witness :
    ∃ q, q ∈ dbPr.questions ∧ q.id = pPr.1 ∧
      pPr.2.explanation =
        (if attPr.mode = some AttemptMode.practice ∧ (∃ a ∈ attPr.answers, a.questionId = q.id) ∧
            truthyStr q.explanation = true
         then q.explanation else none) :=
  practice_explanation_disclosure dbPr "a5" "u5" attPr viewPr rfl rfl pPr (by decide)

/-! ## C3: the student view never depends on correctness data -/

/-- Clear an option's stored correctness flag. -/
def scrubOption (o : QOption) : QOption := { o with isCorrect := false }

/-- Erase exactly the correctness data of a question: per-option
isCorrect flags, correctAnswerText, integerAnswer, and the three
assertion-reason booleans.  Two catalogs whose questions agree after
scrubbing differ only in correctness data. -/
def scrubCorrectness (q : Question) : Question :=
  { q with
    options := q.options.map (fun os => os.map scrubOption)
    correctAnswerText := none
    integerAnswer := none
    assertionIsTrue := none
    reasonIsTrue := none
    reasonExplainsAssertion := none }

theorem sanitizeQuestion_scrub (q : Question) :
    sanitizeQuestion (scrubCorrectness q) = sanitizeQuestion q := by
  unfold sanitizeQuestion scrubCorrectness
  rcases q.options with _ | os <;> simp [List.map_map, Function.comp, scrubOption]

theorem viewEntry_scrub (att : Attempt) (q : Question) :
    viewEntry att (scrubCorrectness q) = viewEntry att q := by
  unfold viewEntry
  rw [sanitizeQuestion_scrub]
  rfl

/-- Pointwise scrub-equal lists produce identical filtered view maps
(the filter only inspects ids, which scrubbing preserves). -/
theorem view_map_filter_scrub (att : Attempt) (qids : List String) :
    ∀ l1 l2 : List Question, l1.map scrubCorrectness = l2.map scrubCorrectness →
      (l1.filter (fun q => qids.contains q.id)).map (viewEntry att) =
      (l2.filter (fun q => qids.contains q.id)).map (viewEntry att) := by
  intro l1
  induction l1 with
  | nil =>
    intro l2 h
    cases l2 with
    | nil => rfl
    | cons b t2 => simp at h
  | cons a t ih =>
    intro l2 h
    cases l2 with
    | nil => simp at h
    | cons b t2 =>
      simp only [List.map_cons, List.cons.injEq] at h
      obtain ⟨hab, ht⟩ := h
      have hid : a.id = b.id := by
        have h2 := congrArg Question.id hab
        simpa [scrubCorrectness] using h2
      have hv : viewEntry att a = viewEntry att b := by
        rw [← viewEntry_scrub att a, hab, viewEntry_scrub]
      simp only [List.filter_cons]
      by_cases hc : qids.contains a.id = true
      · have hcb : qids.contains b.id = true := hid ▸ hc
        rw [if_pos hc, if_pos hcb]
        rw [List.map_cons, List.map_cons, hv, ih t2 ht]
      · have hcb : ¬(qids.contains b.id = true) := by
          rw [← hid]
          exact hc
        rw [if_neg hc, if_neg hcb]
        exact ih t2 ht

/-- C3: the student-facing view is oblivious to all correctness data:
two databases whose question catalogs agree after scrubbing correctness
(option isCorrect flags, correctAnswerText, integerAnswer, and the
assertion-reason booleans) produce identical getAttemptView results for
every attempt and caller — so no projection can expose any of it. -/
theorem view_ignores_correctness
    (db : DB) (qs2 : List Question) (attemptId userId : String)
    (h : db.questions.map scrubCorrectness = qs2.map scrubCorrectness) :
    getAttemptView { db with questions := qs2 } attemptId userId =
      getAttemptView db attemptId userId := by
  unfold getAttemptView
  have hA2 : findAttemptById { db with questions := qs2 } attemptId =
      findAttemptById db attemptId := rfl
  rw [hA2]
  rcases hA : findAttemptById db attemptId with _ | att
  · rfl
  · dsimp only
    by_cases ho : att.userId = userId
    · have ho2 : ¬(att.userId ≠ userId) := fun hne => hne ho
      rw [if_neg ho2, if_neg ho2]
      have hE2 : findExam { db with questions := qs2 } att.examId =
          findExam db att.examId := rfl
      rw [hE2]
      rcases hE : findExam db att.examId with _ | exam
      · rfl
      · dsimp only
        have hQ : (questionsFor { db with questions := qs2 } (examQids exam)).map (viewEntry att) =
            (questionsFor db (examQids exam)).map (viewEntry att) :=
          view_map_filter_scrub att (examQids exam) qs2 db.questions h.symm
        rw [hQ]
    · have ho2 : att.userId ≠ userId := ho
      rw [if_pos ho2, if_pos ho2]

def qSecret : Question :=
  { id := "qz", text := "pick", type := .mcq,
    options := some [{ id := "oz1", text := "A", isCorrect := true },
                     { id := "oz2", text := "B", isCorrect := false }],
    correctAnswerText := some "A", integerAnswer := some 7,
    assertionIsTrue := some true, reasonIsTrue := some false,
    reasonExplainsAssertion := some true }

/-- The same question with its correctness data altered everywhere. -/
def qSecretAlt : Question :=
  { id := "qz", text := "pick", type := .mcq,
    options := some [{ id := "oz1", text := "A", isCorrect := false },
                     { id := "oz2", text := "B", isCorrect := true }],
    correctAnswerText := some "B", integerAnswer := some 9,
    assertionIsTrue := some false, reasonIsTrue := some true,
    reasonExplainsAssertion := some false }

def examSec : Exam :=
  { id := "e6", title := "Z", isPublished := true,
    sections := [{ id := "s1", title := "S", questionIds := ["qz"] }] }

def attSec : Attempt :=
  { id := "a6", examId := "e6", userId := "u6", status := .inProgress }

def dbSec : DB := { exams := [examSec], questions := [qSecret], attempts := [attSec] }

/-- Witness for C3: flipping every piece of correctness data of the
concrete catalog leaves the student view identical. -/
theorem view_ignores_correctness_witness :
    getAttemptView { dbSec with questions := [qSecretAlt] } "a6" "u6" =
      getAttemptView dbSec "a6" "u6" :=
  view_ignores_correctness dbSec [qSecretAlt] "a6" "u6" (by decide)

end CBT
